import Mathlib

/-!
Verification of the stock-market-data-analysis repository.

This file gives a shallow embedding, in Lean 4, of the parts of the
repository that the specification talks about:

* the JSON-parsing step of the Alpha Vantage payloads
  (scripts/alpha_vantage_api_commented.py and scripts/api_client.py,
  methods parse_daily_time_series and parse_daily_adjusted),
* the sleep-based rate limiter (handle_rate_limit and the private
  rate-limit helper of the commented class),
* the retry loop of StockDataDownloader.download_symbol_data
  (scripts/stock_downloader_commented.py),
* the Note-handling retry recursion of get_daily_time_series and
  get_daily_adjusted (scripts/alpha_vantage_api_commented.py),
* the batch-insert routine StockDataStorage.store_stock_data
  (scripts/stock_storage_commented.py),
* the web form download flow (webapp/app.py, route /descargar),
* the SQL insert call sites (scripts/Downloader.py, the batch-insert
  routine, and the web form),
* the Singleton pattern (scripts/base.py) and the constructor of
  AlphaVantageClient (scripts/api_client.py).

Modelling conventions:

* Python strings are Lean `String`; character-level work goes through
  `String.data` so that everything reduces in the kernel.
* Python `float` values are modelled as rationals (`ℚ`); `float(s)` and
  `int(s)` applied to the numeric-literal strings of the Alpha Vantage
  payloads are modelled by decimal parsers over the characters of `s`
  (without the exotic forms such as exponents, infinities or surrounding
  whitespace, which never occur in these payloads).
* A Python dict parsed from JSON is modelled as an association list in
  insertion order (Python dicts preserve insertion order).
* A call that raises an exception is modelled by `Option.none` /
  a dedicated failure result.
* Wall-clock time (`time.time()`) is a rational number; `time.sleep(s)`
  advances it by exactly `s`.
-/

/-! ## Character-level string helpers (Python string semantics) -/

/-- Python lexicographic string comparison (`s1 < s2`), character by
character on code points, shorter strict prefix first. -/
def charListLtB : List Char → List Char → Bool
  | _, [] => false
  | [], _ :: _ => true
  | a :: as, b :: bs =>
    if a.toNat < b.toNat then true
    else if b.toNat < a.toNat then false
    else charListLtB as bs

/-- Python `s1 < s2` on strings. -/
def pyStrLt (s1 s2 : String) : Bool := charListLtB s1.data s2.data

/-- Value of a non-empty all-digit character list, as in Python
`int(s)` for an unsigned decimal literal. -/
def digitsVal : List Char → Option Nat
  | [] => none
  | l => if l.all Char.isDigit then
      some (l.foldl (fun n c => 10 * n + (c.toNat - 48)) 0)
    else none

/-- Python `int(s)`: optional sign followed by decimal digits;
anything else raises `ValueError` (modelled by `none`). -/
def pyInt (s : String) : Option Int :=
  match s.data with
  | '-' :: rest => (digitsVal rest).map (fun n => -(n : Int))
  | '+' :: rest => (digitsVal rest).map (fun n => (n : Int))
  | l => (digitsVal l).map (fun n => (n : Int))

/-- Splits a character list at the first dot, if any. -/
def splitAtDot : List Char → List Char × Option (List Char)
  | [] => ([], none)
  | c :: rest =>
    if c = '.' then ([], some rest)
    else
      let (ip, fp) := splitAtDot rest
      (c :: ip, fp)

/-- Unsigned decimal literal with optional fractional part, as accepted
by Python `float(s)` (integer part, fractional part, or both). -/
def pyFloatUnsigned (l : List Char) : Option ℚ :=
  match splitAtDot l with
  | (ip, none) => (digitsVal ip).map (fun n => (n : ℚ))
  | ([], some []) => none
  | (ip, some fp) =>
    if (ip = [] ∨ (ip.all Char.isDigit)) ∧ (fp = [] ∨ (fp.all Char.isDigit)) then
      some (((digitsVal ip).getD 0 : ℚ) +
        ((digitsVal fp).getD 0 : ℚ) / ((10 : ℚ) ^ fp.length))
    else none

/-- Python `float(s)` on the decimal literals found in Alpha Vantage
payloads: optional sign, digits, optional dot and fraction digits.
Raising `ValueError` is modelled by `none`. -/
def pyFloat (s : String) : Option ℚ :=
  match s.data with
  | '-' :: rest => (pyFloatUnsigned rest).map (fun q => -q)
  | '+' :: rest => pyFloatUnsigned rest
  | l => pyFloatUnsigned l

/-! ## The JSON data model for the time-series payloads

A per-date values object (for example the dict under a date key of
`Time Series (Daily)`) is an association list from field names to the
string values of the JSON payload.  `values[k]` with a missing key `k`
raises `KeyError`, modelled by `none`. -/

/-- A per-date JSON object: field name to string value, in insertion
order. -/
abbrev AvEntry : Type := List (String × String)

/-- Models Python dict access on a per-date object (KeyError is `none`). -/
def avGet (vals : AvEntry) (k : String) : Option String :=
  List.lookup k vals

/-- The payload argument of the parse methods.  The methods only look
at emptiness of the dict and at the key `Time Series (Daily)`; since an
empty dict cannot contain the key, the guard
`not data or ... not in data` is exactly
"the time series is absent".  `some ts` is the list of
(date, values) items of the time-series dict of `data` in insertion
order. -/
abbrev AvPayload : Type := Option (List (String × AvEntry))

/-- One formatted record of `parse_daily_time_series`. -/
structure DailyRecord where
  date : String
  openP : ℚ
  high : ℚ
  low : ℚ
  closeP : ℚ
  volume : Int
deriving Repr, DecidableEq

/-- One formatted record of `parse_daily_adjusted`. -/
structure AdjustedRecord where
  date : String
  openP : ℚ
  high : ℚ
  low : ℚ
  closeP : ℚ
  adjusted_close : ℚ
  volume : Int
  dividend_amount : ℚ
  split_coefficient : ℚ
deriving Repr, DecidableEq

/-! ## The stable descending sort

`formatted_data.sort(key=..., reverse=True)` on the date key is a
stable sort, descending on the date string.  It is modelled by a stable
insertion sort: elements are processed in list order and each is placed
behind every already-placed element whose date is not smaller. -/

/-- Inserts a record into a list sorted descending by `key`, behind the
elements whose key is greater than or equal to its own. -/
def insertDescBy {α : Type} (key : α → String) (r : α) : List α → List α
  | [] => [r]
  | y :: ys =>
    if pyStrLt (key y) (key r) then r :: y :: ys
    else y :: insertDescBy key r ys

/-- Stable sort, descending on `key` (the model of Python
`list.sort(key=..., reverse=True)` for the date key). -/
def sortDescBy {α : Type} (key : α → String) (l : List α) : List α :=
  l.foldl (fun acc r => insertDescBy key r acc) []

/-! ## The two parse implementations

Namespace `AlphaVantageAPI` embeds the commented procedural version
(scripts/alpha_vantage_api_commented.py); namespace
`AlphaVantageClient` embeds the POO version (scripts/api_client.py).
Each conversion accesses the same field keys and applies `float` / `int`
exactly as the Python body does; a missing key or a failed conversion
raises, which propagates out of the method (`none`). -/

/-- Conversion of one (date, values) item of the plain daily series:
open, high, low, close as float and volume as int. -/
def convDaily (item : String × AvEntry) : Option DailyRecord := do
  let o ← (avGet item.2 "1. open").bind pyFloat
  let h ← (avGet item.2 "2. high").bind pyFloat
  let lo ← (avGet item.2 "3. low").bind pyFloat
  let c ← (avGet item.2 "4. close").bind pyFloat
  let v ← (avGet item.2 "5. volume").bind pyInt
  pure ⟨item.1, o, h, lo, c, v⟩

/-- Conversion of one (date, values) item of the adjusted daily
series. -/
def convAdjusted (item : String × AvEntry) : Option AdjustedRecord := do
  let o ← (avGet item.2 "1. open").bind pyFloat
  let h ← (avGet item.2 "2. high").bind pyFloat
  let lo ← (avGet item.2 "3. low").bind pyFloat
  let c ← (avGet item.2 "4. close").bind pyFloat
  let ac ← (avGet item.2 "5. adjusted close").bind pyFloat
  let v ← (avGet item.2 "6. volume").bind pyInt
  let da ← (avGet item.2 "7. dividend amount").bind pyFloat
  let sc ← (avGet item.2 "8. split coefficient").bind pyFloat
  pure ⟨item.1, o, h, lo, c, ac, v, da, sc⟩

/-- The loop `for date, values in time_series.items(): ...append(...)`;
the first raising conversion aborts the whole call. -/
def convertAll {α β : Type} (f : α → Option β) : List α → Option (List β)
  | [] => some []
  | x :: xs => do
    let y ← f x
    let ys ← convertAll f xs
    pure (y :: ys)

namespace AlphaVantageAPI

/-- Embeds `AlphaVantageAPI.parse_daily_time_series` of
scripts/alpha_vantage_api_commented.py: on an absent or empty payload
returns `[]`; otherwise converts every (date, values) item and sorts
the result by date string, most recent first.  `none` models a raised
`KeyError` / `ValueError`. -/
def parse_daily_time_series (data : AvPayload) : Option (List DailyRecord) :=
  match data with
  | none => some []
  | some ts => do
    let formatted ← convertAll convDaily ts
    pure (sortDescBy DailyRecord.date formatted)

/-- Embeds `AlphaVantageAPI.parse_daily_adjusted` of
scripts/alpha_vantage_api_commented.py. -/
def parse_daily_adjusted (data : AvPayload) : Option (List AdjustedRecord) :=
  match data with
  | none => some []
  | some ts => do
    let formatted ← convertAll convAdjusted ts
    pure (sortDescBy AdjustedRecord.date formatted)

end AlphaVantageAPI

namespace AlphaVantageClient

/-- Embeds `AlphaVantageClient.parse_daily_time_series` of
scripts/api_client.py: same guard, same field keys, same conversions
and the same descending sort as the commented version. -/
def parse_daily_time_series (data : AvPayload) : Option (List DailyRecord) :=
  match data with
  | none => some []
  | some ts => do
    let formatted ← convertAll convDaily ts
    pure (sortDescBy DailyRecord.date formatted)

/-- Embeds `AlphaVantageClient.parse_daily_adjusted` of
scripts/api_client.py. -/
def parse_daily_adjusted (data : AvPayload) : Option (List AdjustedRecord) :=
  match data with
  | none => some []
  | some ts => do
    let formatted ← convertAll convAdjusted ts
    pure (sortDescBy AdjustedRecord.date formatted)

end AlphaVantageClient

/-! ## The Singleton pattern and the client constructor (base.py, api_client.py)

`Singleton.__new__` keeps one instance per class in the class-level
dict `_instances`.  The per-class slot is an `Option`: `none` when the
class has not been constructed yet.  `__init__` runs on every
construction, but `AlphaVantageClient.__init__` returns immediately
when the attribute `api_key` already exists, which is the case exactly
when the returned object is a previously initialized instance. -/

/-- The fields set by `AlphaVantageClient.__init__`
(scripts/api_client.py, lines 53-72). -/
structure Client where
  api_key : String
  base_url : String
  last_call_timestamp : ℚ
  min_call_interval : ℚ
deriving Repr, DecidableEq

/-- Embeds `Singleton.__new__` (scripts/base.py, lines 52-65): returns the
stored instance when there is one, otherwise stores and returns the
freshly allocated object.  The result is (returned object, new slot
content). -/
def singletonNew {α : Type} (slot : Option α) (fresh : α) : α × Option α :=
  match slot with
  | some c => (c, some c)
  | none => (fresh, some fresh)

/-- Python truthiness of `api_key or config_key`: the argument is used
unless it is `None` or the empty string. -/
def resolveApiKey (apiKeyArg : Option String) (configKey : String) : String :=
  match apiKeyArg with
  | some k => if k = "" then configKey else k
  | none => configKey

/-- One construction `AlphaVantageClient(api_key)`:
`Singleton.__new__` followed by `__init__`.  When the slot already
holds an instance, `__init__` sees `hasattr` succeed on `api_key` (the
first construction always sets `api_key`) and returns without touching
any attribute; otherwise it sets `api_key`, `base_url`,
`last_call_timestamp = 0` and `min_call_interval = 12`. -/
def constructClient (slot : Option Client) (apiKeyArg : Option String)
    (configKey configUrl : String) : Client × Option Client :=
  match slot with
  | some c => (c, some c)
  | none =>
    let c : Client :=
      { api_key := resolveApiKey apiKeyArg configKey
        base_url := configUrl
        last_call_timestamp := 0
        min_call_interval := 12 }
    (c, some c)

/-! ## The rate limiter (api_client.py lines 79-102, commented version lines 70-93)

`handle_rate_limit` reads the clock, sleeps when less than
`min_call_interval` seconds have elapsed since `last_call_timestamp`,
and stores the clock value read after the sleep.  The model returns the
sleep duration together with the updated client; the clock after a
sleep of `s` seconds is `now + s`. -/

/-- Embeds `AlphaVantageClient.handle_rate_limit` at clock value `now`:
(sleep duration, updated client). -/
def handle_rate_limit (c : Client) (now : ℚ) : ℚ × Client :=
  let time_since_last_call := now - c.last_call_timestamp
  if time_since_last_call < c.min_call_interval then
    let sleep_time := c.min_call_interval - time_since_last_call
    (sleep_time, { c with last_call_timestamp := now + sleep_time })
  else
    (0, { c with last_call_timestamp := now })

/-- Embeds `AlphaVantageAPI._respect_rate_limit` of
scripts/alpha_vantage_api_commented.py (lines 70-93): the identical
computation on the same fields. -/
def respect_rate_limit (c : Client) (now : ℚ) : ℚ × Client :=
  let time_since_last_call := now - c.last_call_timestamp
  if time_since_last_call < c.min_call_interval then
    let sleep_time := c.min_call_interval - time_since_last_call
    (sleep_time, { c with last_call_timestamp := now + sleep_time })
  else
    (0, { c with last_call_timestamp := now })

/-- The instant at which the request of `AlphaVantageClient.get`
leaves, namely the clock value right after `handle_rate_limit`
returns: it equals the stored `last_call_timestamp`. -/
def getRequestStart (c : Client) (now : ℚ) : ℚ :=
  ((handle_rate_limit c now).2).last_call_timestamp

/-! ## The downloader retry loop (stock_downloader_commented.py lines 144-213)

Each loop iteration is classified by what the body observes:

* `exn`: the attempt raises (no data received, an `Error Message`
  response, or any other exception) and control reaches the
  `except` block;
* `note`: the response carries a `Note` mentioning `call frequency`;
* `good`: a usable response.

The retry configuration of the source is `max_retries = 3` and
`retry_delay = 60`, doubled after each sleep. -/

/-- Classification of one download attempt. -/
inductive Outcome
  | exn
  | note
  | good
deriving Repr, DecidableEq

/-- What `download_symbol_data` did for one symbol: the number of
attempts made, the sleep durations before each retry in order, the
status written by `update_download_status`, and the returned triple
(download_id, data, success) with the data abstracted to its
presence. -/
structure RunResult where
  attemptsMade : Nat
  waits : List Nat
  statusUpdate : Option String
  retDownloadId : Option Nat
  retDataPresent : Bool
  retSuccess : Bool
deriving Repr, DecidableEq

/-- The body of `for attempt in range(1, max_retries + 1)`.  `fuel` is
the number of iterations the range still yields; the classification of
attempt number `k` is `f k`.  On `note` with `attempt < max_retries`
and on an exception with `attempt < max_retries` the loop sleeps
`delay` seconds, doubles the delay and continues; a `note` on the last
attempt falls through to the success path of the body exactly as the
source does. -/
def downloadGo (f : Nat → Outcome) (maxRetries downloadId : Nat) :
    Nat → Nat → Nat → List Nat → RunResult
  | 0, _, attempt, waits =>
    { attemptsMade := attempt - 1
      waits := waits.reverse
      statusUpdate := none
      retDownloadId := none
      retDataPresent := false
      retSuccess := false }
  | fuel + 1, delay, attempt, waits =>
    match f attempt with
    | Outcome.good =>
      { attemptsMade := attempt
        waits := waits.reverse
        statusUpdate := some "Completed"
        retDownloadId := some downloadId
        retDataPresent := true
        retSuccess := true }
    | Outcome.note =>
      if attempt < maxRetries then
        downloadGo f maxRetries downloadId fuel (delay * 2) (attempt + 1) (delay :: waits)
      else
        { attemptsMade := attempt
          waits := waits.reverse
          statusUpdate := some "Completed"
          retDownloadId := some downloadId
          retDataPresent := true
          retSuccess := true }
    | Outcome.exn =>
      if attempt < maxRetries then
        downloadGo f maxRetries downloadId fuel (delay * 2) (attempt + 1) (delay :: waits)
      else
        { attemptsMade := attempt
          waits := waits.reverse
          statusUpdate := some "Failed"
          retDownloadId := some downloadId
          retDataPresent := false
          retSuccess := false }

/-- The retry loop of `StockDataDownloader.download_symbol_data` with
the configuration of the source: `max_retries = 3`,
initial `retry_delay = 60`. -/
def download_symbol_data (downloadId : Nat) (f : Nat → Outcome) : RunResult :=
  downloadGo f 3 downloadId 3 60 1 []

/-! ## The Note-handling recursion of the commented API class
(alpha_vantage_api_commented.py lines 95-157 and 159-222)

`get_daily_time_series` classifies the response of each request:

* `failure`: an HTTP error, a JSON decode error, or a payload with an
  `Error Message` — the method returns `None`;
* `noteLimited`: a payload whose `Note` mentions `call frequency` —
  the method sleeps 60 seconds and calls itself again;
* `ok d`: a usable payload `d`.

The recursion has no attempt counter, so it is interpreted with an
explicit fuel: the `k`-th request receives response `resps k`, and a
result of `none` means the call is still re-issuing requests after
`fuel` of them. -/

/-- Classification of one Alpha Vantage response (the payload `d` is
abstracted to a number). -/
inductive AvResp
  | failure
  | noteLimited
  | ok (d : Nat)
deriving Repr, DecidableEq

/-- The body of `get_daily_time_series` interpreted with fuel, starting at request
index `idx`.  The result carries the returned value (`none` for the
error paths that `return None`) and the number of 60-second rate-limit
sleeps performed. -/
def getDailyGo (resps : Nat → AvResp) : Nat → Nat → Option (Option Nat × Nat)
  | 0, _ => none
  | fuel + 1, idx =>
    match resps idx with
    | AvResp.failure => some (none, 0)
    | AvResp.ok d => some (some d, 0)
    | AvResp.noteLimited =>
      (getDailyGo resps fuel (idx + 1)).map (fun r => (r.1, r.2 + 1))

/-- Embeds `AlphaVantageAPI.get_daily_time_series` under a fuel bound:
`none` when the Note-handling recursion is still running after `fuel`
requests.  `get_daily_adjusted` has the identical structure. -/
def get_daily_time_series (resps : Nat → AvResp) (fuel : Nat) :
    Option (Option Nat × Nat) :=
  getDailyGo resps fuel 0

/-- The value a terminating call returns for the response that stops
the recursion. -/
def avAnswer : AvResp → Option Nat
  | AvResp.failure => none
  | AvResp.noteLimited => none
  | AvResp.ok d => some d

/-! ## The batch-insert routine (stock_storage_commented.py lines 187-270)

`store_stock_data` builds one 9-tuple per item of `data_list`, walks
`range(0, len(values_list), batch_size)` with `batch_size = 1000`,
and for each slice runs `executemany` followed by `commit`.  An
exception during a batch reaches the `except` block, which rolls back
the (uncommitted) current batch and returns 0; the batches committed
before it stay in the database.  The database effect is modelled by the
list of committed rows, and the exception by the index of the batch
whose insert raises (`failsAt`). -/

/-- One item of the `data_list` argument (produced by
`process_json_file`). -/
structure StockItem where
  date : String
  openP : ℚ
  high : ℚ
  low : ℚ
  closeP : ℚ
  adjusted_close : ℚ
  volume : Int
deriving Repr, DecidableEq

/-- The row tuple appended to `values_list`:
(SymbolID, Date, Open, High, Low, Close, AdjustedClose, Volume,
DownloadID). -/
abbrev Tuple9 : Type := Nat × String × ℚ × ℚ × ℚ × ℚ × ℚ × Int × Nat

/-- The 9-tuple built from one item. -/
def toTuple (symbolId downloadId : Nat) (it : StockItem) : Tuple9 :=
  (symbolId, it.date, it.openP, it.high, it.low, it.closeP,
    it.adjusted_close, it.volume, downloadId)

/-- The slices `values_list[i:i+batch_size]` for
`i in range(0, len(values_list), batch_size)` with
`batch_size = 1000`: slice number `j` starts at offset `1000 * j`, and
`range` yields `ceil(len / 1000)` offsets. -/
def batches1000 {α : Type} (l : List α) : List (List α) :=
  (List.range ((l.length + 999) / 1000)).map
    (fun j => (l.drop (1000 * j)).take 1000)

/-- The `try` block: insert the batches in order, committing each one.
`failsAt = some j` means `executemany` (or the commit) of batch number
`j` raises; the `except` block then rolls back the current batch and
the call returns 0, keeping what was already committed.  The result is
(returned count, committed rows). -/
def insertBatches (failsAt : Option Nat) :
    List (List Tuple9) → Nat → Nat → List Tuple9 → Nat × List Tuple9
  | [], _, total, committed => (total, committed)
  | b :: rest, idx, total, committed =>
    if failsAt = some idx then (0, committed)
    else insertBatches failsAt rest (idx + 1) (total + b.length) (committed ++ b)

/-- Embeds `StockDataStorage.store_stock_data`: returns 0 at once on an empty
`data_list` or an unknown symbol (`symbolInfo = none`); otherwise
builds the tuples and runs the batch loop.  The second component is
the final content contributed to `AVdata.StockPrices`. -/
def store_stock_data (symbolInfo : Option Nat) (data_list : List StockItem)
    (downloadId : Nat) (failsAt : Option Nat) : Nat × List Tuple9 :=
  match data_list with
  | [] => (0, [])
  | _ =>
    match symbolInfo with
    | none => (0, [])
    | some symbolId =>
      let values_list := data_list.map (toTuple symbolId downloadId)
      insertBatches failsAt (batches1000 values_list) 0 0 []

/-! ## The web form download flow (webapp/app.py lines 63-160)

The `/descargar` handler validates the form, looks the symbol up,
downloads a Yahoo Finance frame, and then, inside a single
`connection.begin()` transaction, deletes every `StockPrices` row of
the selected SymbolID and inserts one row per downloaded record.  The
transaction commits on success and rolls back as a whole on any
exception inside it, leaving the table as it was.

The database is the list of `StockPrices` rows; the downloaded frame
is `none` when `descargar_datos_yahoo` raises, otherwise the list of
its records; `failsAt = some k` means statement number `k` of the
transaction raises (0 is the DELETE, `i + 1` is the INSERT of record
`i`). -/

/-- A stored `AVData.StockPrices` row as the web flow writes it. -/
structure PriceRow where
  symbolId : Nat
  date : String
  openP : ℚ
  high : ℚ
  low : ℚ
  closeP : ℚ
  volume : Int
deriving Repr, DecidableEq

/-- One record of the downloaded Yahoo Finance frame. -/
structure YahooRec where
  date : String
  openP : ℚ
  high : ℚ
  low : ℚ
  closeP : ℚ
  volume : Int
deriving Repr, DecidableEq

/-- The row inserted for one downloaded record. -/
def toPriceRow (symbolId : Nat) (r : YahooRec) : PriceRow :=
  ⟨symbolId, r.date, r.openP, r.high, r.low, r.closeP, r.volume⟩

/-- The POST form of `/descargar`; a missing field is `none`
(`request.form.get`). -/
structure WebForm where
  symbol_id : Option String
  fecha_inicio : Option String
  fecha_fin : Option String

/-- How the handler ends: a flashed message of the given category and
a redirect to the index (every path of the source redirects). -/
inductive FlashKind
  | warning
  | error
  | success
deriving Repr, DecidableEq

/-- Leap year as `datetime` computes it. -/
def isLeapYear (y : Nat) : Bool :=
  y % 4 = 0 && (y % 100 ≠ 0 || y % 400 = 0)

/-- Days of a month for `datetime` validation. -/
def daysInMonth (y m : Nat) : Nat :=
  if m = 2 then (if isLeapYear y then 29 else 28)
  else if m = 4 ∨ m = 6 ∨ m = 9 ∨ m = 11 then 30
  else 31

/-- Splits a character list at the separator character. -/
def splitOnChar (sep : Char) (l : List Char) : List (List Char) :=
  match l with
  | [] => [[]]
  | c :: rest =>
    let parts := splitOnChar sep rest
    if c = sep then [] :: parts
    else
      match parts with
      | [] => [[c]]
      | p :: ps => (c :: p) :: ps

/-- Embeds `datetime.strptime` with the year-month-day format: three
dash-separated decimal fields.  The `%Y` directive matches exactly four
digits, `%m` and `%d` match one or two; the `datetime` constructor then
validates the calendar date (month 1-12, day within the month, year at
least MINYEAR = 1).  A failure raises `ValueError` (`none`). -/
def parseDateYMD (s : String) : Option (Nat × Nat × Nat) :=
  match splitOnChar '-' s.data with
  | [ys, ms, ds] => do
    let y ← digitsVal ys
    let m ← digitsVal ms
    let d ← digitsVal ds
    if ys.length = 4 ∧ ms.length ≤ 2 ∧ ds.length ≤ 2 ∧
        1 ≤ y ∧ y ≤ 9999 ∧ 1 ≤ m ∧ m ≤ 12 ∧ 1 ≤ d ∧ d ≤ daysInMonth y m then
      some (y, m, d)
    else none
  | _ => none

/-- Left-pads a decimal rendering with zeros to the given width
(`strftime` zero-padding). -/
def padNum (width n : Nat) : String :=
  let digits := Nat.toDigits 10 n
  String.mk (List.replicate (width - digits.length) '0' ++ digits)

/-- Embeds `strftime` with the zero-padded year-month-day format. -/
def formatDateYMD (d : Nat × Nat × Nat) : String :=
  padNum 4 d.1 ++ "-" ++ padNum 2 d.2.1 ++ "-" ++ padNum 2 d.2.2

/-- The delete-then-insert transaction of the handler
(`with connection.begin()`): on success the rows of the SymbolID are
replaced by the downloaded records; on any exception inside the block
the whole transaction rolls back and the table is unchanged.  The
transaction runs `1 + records.length` statements. -/
def descargarTransaction (db : List PriceRow) (symbolId : Nat)
    (records : List YahooRec) (failsAt : Option Nat) :
    List PriceRow × FlashKind :=
  match failsAt with
  | some k =>
    if k < 1 + records.length then (db, FlashKind.error)
    else (db.filter (fun r => r.symbolId ≠ symbolId) ++
      records.map (toPriceRow symbolId), FlashKind.success)
  | none =>
    (db.filter (fun r => r.symbolId ≠ symbolId) ++
      records.map (toPriceRow symbolId), FlashKind.success)

/-- The `/descargar` handler.  `symbols` is the `Metadata.Symbols`
table (SymbolID, Symbol); `connOk` is whether `conectar_sql_server`
succeeds; `fetch` is the outcome of `descargar_datos_yahoo`
(`none` models a raised exception, caught by the outer handler);
`failsAt` injects a failure into the transaction.  The result is the
final table content and the flashed category. -/
def descargar (form : WebForm) (symbols : List (Nat × String))
    (connOk : Bool) (fetch : Option (List YahooRec)) (failsAt : Option Nat)
    (db : List PriceRow) : List PriceRow × FlashKind :=
  match form.symbol_id, form.fecha_inicio, form.fecha_fin with
  | some sidStr, some fiStr, some ffStr =>
    if sidStr = "" ∨ fiStr = "" ∨ ffStr = "" then (db, FlashKind.warning)
    else
      match parseDateYMD fiStr, parseDateYMD ffStr with
      | some d1, some d2 =>
        if pyStrLt (formatDateYMD d2) (formatDateYMD d1) then (db, FlashKind.warning)
        else if !connOk then (db, FlashKind.error)
        else
          match (digitsVal sidStr.data).bind
              (fun sid => (symbols.lookup sid).map (fun _ => sid)) with
          | none => (db, FlashKind.error)
          | some sid =>
            match fetch with
            | none => (db, FlashKind.error)
            | some [] => (db, FlashKind.warning)
            | some records => descargarTransaction db sid records failsAt
      | _, _ => (db, FlashKind.warning)
  | _, _, _ => (db, FlashKind.warning)

/-! ## The SQL insert call sites (claim about parameterization)

Each site is modelled as the pair (query text, parameters) handed to
the driver.  The query text is the literal of the source; the row
values travel only in the parameter payload. -/

/-- A value passed to the database driver as a placeholder
parameter. -/
inductive SqlValue
  | intV (i : Int)
  | natV (n : Nat)
  | strV (s : String)
  | ratV (q : ℚ)
deriving Repr, DecidableEq

/-- The `insert_sql` literal of scripts/Downloader.py (lines 79-83). -/
def downloaderInsertSql : String :=
  "INSERT INTO [AVData].[StockPrices] ([SymbolId], [Date], [Open], [High], [Low], [Close], [Volume], [CreatedDate]) VALUES (?, ?, ?, ?, ?, ?, ?, getdate())"

/-- One row of the frame inserted by scripts/Downloader.py. -/
structure DownloaderRow where
  fecha : String
  apertura : ℚ
  alto : ℚ
  bajo : ℚ
  cierre : ℚ
  volumen : Int
deriving Repr, DecidableEq

/-- Embeds `cursor.execute(insert_sql, symbol_id, row[...], ...)` of
scripts/Downloader.py (lines 93-98): the statement sent and its
positional parameters. -/
def downloaderInsertCall (symbolId : Nat) (r : DownloaderRow) :
    String × List SqlValue :=
  (downloaderInsertSql,
    [SqlValue.natV symbolId, SqlValue.strV r.fecha, SqlValue.ratV r.apertura,
      SqlValue.ratV r.alto, SqlValue.ratV r.bajo, SqlValue.ratV r.cierre,
      SqlValue.intV r.volumen])

/-- The parameterized query of `store_stock_data`
(stock_storage_commented.py lines 249-253). -/
def storageInsertSql : String :=
  "INSERT INTO AVdata.StockPrices (SymbolID, Date, Open, High, Low, Close, AdjustedClose, Volume, DownloadID) VALUES (?, ?, ?, ?, ?, ?, ?, ?, ?)"

/-- Embeds `self.cursor.executemany(query, batch)`: the statement sent and
the rows travelling as parameters. -/
def storageInsertCall (batch : List Tuple9) : String × List Tuple9 :=
  (storageInsertSql, batch)

/-- The `insert_sql` text of webapp/app.py (lines 122-126), with named
placeholders. -/
def webappInsertSql : String :=
  "INSERT INTO AVData.StockPrices (SymbolID, Date, [Open], High, Low, [Close], Volume, CreatedDate) VALUES (:symbol_id, :date, :open, :high, :low, :close, :volume, GETDATE())"

/-- Embeds `connection.execute(insert_sql, params)` for one record of the
frame (webapp/app.py lines 129-141): the statement and the named
parameter dict. -/
def webappInsertCall (symbolId : Int) (r : YahooRec) :
    String × List (String × SqlValue) :=
  (webappInsertSql,
    [("symbol_id", SqlValue.intV symbolId), ("date", SqlValue.strV r.date),
      ("open", SqlValue.ratV r.openP), ("high", SqlValue.ratV r.high),
      ("low", SqlValue.ratV r.low), ("close", SqlValue.ratV r.closeP),
      ("volume", SqlValue.intV r.volume)])

/-! ## Helper lemmas on the lexicographic comparison and the sort -/

lemma charListLtB_irrefl : ∀ l : List Char, charListLtB l l = false := by
  intro l
  induction l with
  | nil => rfl
  | cons x xs ih => simp [charListLtB, ih]

lemma charListLtB_trans : ∀ a b c : List Char,
    charListLtB a b = true → charListLtB b c = true → charListLtB a c = true := by
  intro a
  induction a with
  | nil =>
    intro b c hab hbc
    cases b with
    | nil => exact absurd hab (by simp [charListLtB])
    | cons y ys =>
      cases c with
      | nil => exact absurd hbc (by simp [charListLtB])
      | cons z zs => simp [charListLtB]
  | cons x xs ih =>
    intro b c hab hbc
    cases b with
    | nil => exact absurd hab (by simp [charListLtB])
    | cons y ys =>
      cases c with
      | nil => exact absurd hbc (by simp [charListLtB])
      | cons z zs =>
        simp only [charListLtB] at hab hbc ⊢
        rcases Nat.lt_trichotomy x.toNat y.toNat with h1 | h1 | h1
        · rcases Nat.lt_trichotomy y.toNat z.toNat with h2 | h2 | h2
          · simp [show x.toNat < z.toNat by omega]
          · simp [show x.toNat < z.toNat by omega]
          · rw [if_neg (by omega), if_pos (by omega)] at hbc
            cases hbc
        · rw [if_neg (by omega), if_neg (by omega)] at hab
          rcases Nat.lt_trichotomy y.toNat z.toNat with h2 | h2 | h2
          · simp [show x.toNat < z.toNat by omega]
          · rw [if_neg (by omega), if_neg (by omega)] at hbc
            rw [if_neg (by omega), if_neg (by omega)]
            exact ih ys zs hab hbc
          · rw [if_neg (by omega), if_pos (by omega)] at hbc
            cases hbc
        · rw [if_neg (by omega), if_pos (by omega)] at hab
          cases hab

lemma pyStrLt_trans (s1 s2 s3 : String) (h1 : pyStrLt s1 s2 = true)
    (h2 : pyStrLt s2 s3 = true) : pyStrLt s1 s3 = true :=
  charListLtB_trans s1.data s2.data s3.data h1 h2

lemma charListLtB_asymm {a b : List Char} (h : charListLtB a b = true) :
    charListLtB b a = false := by
  cases hba : charListLtB b a with
  | false => rfl
  | true =>
    have := charListLtB_trans a b a h hba
    rw [charListLtB_irrefl] at this
    cases this

lemma pyStrLt_asymm {s1 s2 : String} (h : pyStrLt s1 s2 = true) :
    pyStrLt s2 s1 = false :=
  charListLtB_asymm h

lemma mem_insertDescBy {α : Type} (key : α → String) (r a : α) :
    ∀ l : List α, a ∈ insertDescBy key r l ↔ a = r ∨ a ∈ l := by
  intro l
  induction l with
  | nil => simp [insertDescBy]
  | cons y ys ih =>
    simp only [insertDescBy]
    split
    · simp [or_comm, or_assoc, or_left_comm]
    · simp [ih]
      tauto

lemma length_insertDescBy {α : Type} (key : α → String) (r : α) :
    ∀ l : List α, (insertDescBy key r l).length = l.length + 1 := by
  intro l
  induction l with
  | nil => rfl
  | cons y ys ih =>
    simp only [insertDescBy]
    split
    · simp
    · simp [ih]

lemma pairwise_insertDescBy {α : Type} (key : α → String) (r : α) (l : List α)
    (h : List.Pairwise (fun x y => pyStrLt (key x) (key y) = false) l) :
    List.Pairwise (fun x y => pyStrLt (key x) (key y) = false) (insertDescBy key r l) := by
  induction l with
  | nil => simp [insertDescBy]
  | cons y ys ih =>
    rcases List.pairwise_cons.mp h with ⟨hy, hys⟩
    simp only [insertDescBy]
    split
    · rename_i hlt
      refine List.pairwise_cons.mpr ⟨?_, h⟩
      intro z hz
      rcases List.mem_cons.mp hz with rfl | hzys
      · exact pyStrLt_asymm hlt
      · have hyz := hy z hzys
        cases hrz : pyStrLt (key r) (key z) with
        | false => rfl
        | true =>
          have hcontra := pyStrLt_trans (key y) (key r) (key z) hlt hrz
          rw [hyz] at hcontra
          cases hcontra
    · rename_i hnlt
      refine List.pairwise_cons.mpr ⟨?_, ih hys⟩
      intro z hz
      rcases (mem_insertDescBy key r z ys).mp hz with rfl | hzys
      · simpa using hnlt
      · exact hy z hzys

lemma mem_sortDescBy {α : Type} (key : α → String) (a : α) (l : List α) :
    a ∈ sortDescBy key l ↔ a ∈ l := by
  suffices h : ∀ acc : List α,
      (a ∈ l.foldl (fun acc r => insertDescBy key r acc) acc ↔ a ∈ acc ∨ a ∈ l) by
    simpa using h []
  induction l with
  | nil => intro acc; simp
  | cons x xs ih =>
    intro acc
    simp only [List.foldl_cons]
    rw [ih (insertDescBy key x acc), mem_insertDescBy]
    simp
    tauto

lemma length_sortDescBy {α : Type} (key : α → String) (l : List α) :
    (sortDescBy key l).length = l.length := by
  suffices h : ∀ acc : List α,
      (l.foldl (fun acc r => insertDescBy key r acc) acc).length = acc.length + l.length by
    simpa using h []
  induction l with
  | nil => intro acc; simp
  | cons x xs ih =>
    intro acc
    simp only [List.foldl_cons]
    rw [ih (insertDescBy key x acc), length_insertDescBy]
    simp only [List.length_cons]
    omega

lemma pairwise_sortDescBy {α : Type} (key : α → String) (l : List α) :
    List.Pairwise (fun x y => pyStrLt (key x) (key y) = false) (sortDescBy key l) := by
  suffices h : ∀ acc : List α,
      List.Pairwise (fun x y => pyStrLt (key x) (key y) = false) acc →
      List.Pairwise (fun x y => pyStrLt (key x) (key y) = false)
        (l.foldl (fun acc r => insertDescBy key r acc) acc) by
    exact h [] (List.Pairwise.nil)
  induction l with
  | nil => intro acc hacc; simpa using hacc
  | cons x xs ih =>
    intro acc hacc
    simp only [List.foldl_cons]
    exact ih (insertDescBy key x acc) (pairwise_insertDescBy key x acc hacc)

lemma convertAll_length {α β : Type} (f : α → Option β) :
    ∀ (xs : List α) (ys : List β), convertAll f xs = some ys → ys.length = xs.length := by
  intro xs
  induction xs with
  | nil =>
    intro ys h
    simp [convertAll] at h
    simp [← h]
  | cons x xs ih =>
    intro ys h
    simp only [convertAll, Option.bind_eq_bind, bind, Option.bind] at h
    cases hx : f x with
    | none => rw [hx] at h; cases h
    | some y =>
      rw [hx] at h
      cases hxs : convertAll f xs with
      | none => rw [hxs] at h; cases h
      | some ys' =>
        rw [hxs] at h
        simp at h
        subst h
        simp [ih ys' hxs]

lemma convertAll_mem {α β : Type} (f : α → Option β) :
    ∀ (xs : List α) (ys : List β), convertAll f xs = some ys →
      ∀ y ∈ ys, ∃ x ∈ xs, f x = some y := by
  intro xs
  induction xs with
  | nil =>
    intro ys h y hy
    simp [convertAll] at h
    subst h
    cases hy
  | cons x xs ih =>
    intro ys h y hy
    simp only [convertAll, Option.bind_eq_bind, bind, Option.bind] at h
    cases hx : f x with
    | none => rw [hx] at h; cases h
    | some y0 =>
      rw [hx] at h
      cases hxs : convertAll f xs with
      | none => rw [hxs] at h; cases h
      | some ys' =>
        rw [hxs] at h
        simp at h
        subst h
        rcases List.mem_cons.mp hy with rfl | hmem
        · exact ⟨x, List.mem_cons_self x xs, hx⟩
        · rcases ih ys' hxs y hmem with ⟨x', hx', hfx'⟩
          exact ⟨x', List.mem_cons_of_mem x hx', hfx'⟩

/-! ## Helper lemmas on the batch slicing and the insert loop -/

lemma rangeSlices_flatten {α : Type} (k : Nat) (l : List α) :
    ∀ m : Nat,
      ((List.range m).map (fun j => (l.drop (k * j)).take k)).flatten = l.take (k * m) := by
  intro m
  induction m with
  | zero => simp
  | succ m ih =>
    rw [List.range_succ, List.map_append, List.flatten_append, ih]
    simp only [List.map_cons, List.map_nil, List.flatten_cons, List.flatten_nil,
      List.append_nil]
    rw [← List.take_add, Nat.mul_succ]

lemma batches1000_flatten {α : Type} (l : List α) : (batches1000 l).flatten = l := by
  rw [batches1000, rangeSlices_flatten]
  have h1 := Nat.div_add_mod (l.length + 999) 1000
  have h2 : (l.length + 999) % 1000 < 1000 := Nat.mod_lt _ (by omega)
  have : l.length ≤ 1000 * ((l.length + 999) / 1000) := by omega
  exact List.take_of_length_le this

lemma batches1000_batch_le {α : Type} (l : List α) :
    ∀ b ∈ batches1000 l, b.length ≤ 1000 := by
  intro b hb
  simp only [batches1000, List.mem_map, List.mem_range] at hb
  rcases hb with ⟨j, _, rfl⟩
  simp [List.length_take]

lemma batches1000_length {α : Type} (l : List α) :
    (batches1000 l).length = (l.length + 999) / 1000 := by
  simp [batches1000]

lemma batches1000_take_flatten {α : Type} (l : List α) (j : Nat)
    (h : j < (batches1000 l).length) :
    ((batches1000 l).take j).flatten = l.take (1000 * j) := by
  rw [batches1000_length] at h
  rw [batches1000, ← List.map_take, List.take_range, Nat.min_eq_left (Nat.le_of_lt h),
    rangeSlices_flatten]

lemma insertBatches_none (bs : List (List Tuple9)) :
    ∀ (idx total : Nat) (committed : List Tuple9),
      insertBatches none bs idx total committed =
        (total + (bs.map List.length).sum, committed ++ bs.flatten) := by
  induction bs with
  | nil => intro idx total committed; simp [insertBatches]
  | cons b rest ih =>
    intro idx total committed
    simp only [insertBatches, reduceCtorEq, if_false]
    rw [ih]
    simp only [List.map_cons, List.sum_cons, List.flatten_cons]
    simp [Nat.add_assoc, List.append_assoc]

lemma insertBatches_fail (bs : List (List Tuple9)) :
    ∀ (j idx total : Nat) (committed : List Tuple9), j < bs.length →
      insertBatches (some (idx + j)) bs idx total committed =
        (0, committed ++ (bs.take j).flatten) := by
  induction bs with
  | nil => intro j idx total committed h; cases h
  | cons b rest ih =>
    intro j idx total committed h
    cases j with
    | zero =>
      simp [insertBatches]
    | succ j =>
      have hne : idx + (j + 1) ≠ idx := by omega
      simp only [insertBatches, Option.some.injEq, if_neg hne]
      have : idx + (j + 1) = (idx + 1) + j := by omega
      rw [this, ih j (idx + 1) (total + b.length) (committed ++ b)
        (by simpa [List.length_cons] using h)]
      simp [List.append_assoc]

/-! ## Helper lemmas on the Note-handling recursion -/

lemma getDailyGo_allNote :
    ∀ fuel idx : Nat, getDailyGo (fun _ => AvResp.noteLimited) fuel idx = none := by
  intro fuel
  induction fuel with
  | zero => intro idx; rfl
  | succ fuel ih => intro idx; simp [getDailyGo, ih]

lemma getDailyGo_first_stop (resps : Nat → AvResp) :
    ∀ (n fuel idx : Nat), (∀ k, k < n → resps (idx + k) = AvResp.noteLimited) →
      resps (idx + n) ≠ AvResp.noteLimited → n < fuel →
      getDailyGo resps fuel idx = some (avAnswer (resps (idx + n)), n) := by
  intro n
  induction n with
  | zero =>
    intro fuel idx _ hstop hfuel
    cases fuel with
    | zero => cases hfuel
    | succ fuel =>
      rw [Nat.add_zero] at hstop ⊢
      cases hr : resps idx with
      | failure => simp [getDailyGo, hr, avAnswer]
      | noteLimited => exact absurd hr hstop
      | ok d => simp [getDailyGo, hr, avAnswer]
  | succ n ih =>
    intro fuel idx hbefore hstop hfuel
    cases fuel with
    | zero => cases hfuel
    | succ fuel =>
      have hidx : resps idx = AvResp.noteLimited := by
        simpa using hbefore 0 (Nat.succ_pos n)
      simp only [getDailyGo, hidx]
      have hbefore' : ∀ k, k < n → resps (idx + 1 + k) = AvResp.noteLimited := by
        intro k hk
        have := hbefore (k + 1) (by omega)
        simpa [Nat.add_assoc, Nat.add_comm 1 k] using this
      have hstop' : resps (idx + 1 + n) ≠ AvResp.noteLimited := by
        have : idx + 1 + n = idx + (n + 1) := by omega
        rw [this]
        exact hstop
      rw [ih fuel (idx + 1) hbefore' hstop' (by omega)]
      have : idx + 1 + n = idx + (n + 1) := by omega
      simp [this]

/-! ## The claim theorems -/

/-- Claim C1: the commented procedural version and the POO
object-oriented version implement the identical JSON-parsing step: for
every input payload, `AlphaVantageAPI.parse_daily_time_series` and
`AlphaVantageClient.parse_daily_time_series` return equal results, and
likewise the two `parse_daily_adjusted` implementations. -/
theorem c1_parse_implementations_equal :
    (∀ d : AvPayload,
      AlphaVantageAPI.parse_daily_time_series d =
        AlphaVantageClient.parse_daily_time_series d) ∧
    (∀ d : AvPayload,
      AlphaVantageAPI.parse_daily_adjusted d =
        AlphaVantageClient.parse_daily_adjusted d) :=
  ⟨fun _ => rfl, fun _ => rfl⟩

lemma handle_rate_limit_min (c : Client) (now : ℚ) :
    ((handle_rate_limit c now).2).min_call_interval = c.min_call_interval := by
  rw [handle_rate_limit]
  split <;> rfl

lemma getRequestStart_ge (c : Client) (now : ℚ) :
    c.last_call_timestamp + c.min_call_interval ≤ getRequestStart c now := by
  rw [getRequestStart, handle_rate_limit]
  split
  · rename_i h
    simp only
    linarith
  · rename_i h
    simp only
    linarith [not_lt.mp h]

/-- Claim C2: the rate limiter is fixed-interval and sleep-based.
When `handle_rate_limit` runs at clock value `now` on a client with
`min_call_interval = 12` it sleeps exactly
`min_call_interval - elapsed` if the elapsed time since
`last_call_timestamp` is strictly below 12 seconds and does not sleep
otherwise; it then stores the current clock value; `_respect_rate_limit`
is the same computation; and the request instants of two consecutive
`get()` calls are at least 12 seconds apart. -/
theorem c2_rate_limiter_fixed_interval (c : Client) (now now2 : ℚ)
    (hmin : c.min_call_interval = 12) :
    (now - c.last_call_timestamp < 12 →
      (handle_rate_limit c now).1 = 12 - (now - c.last_call_timestamp)) ∧
    (12 ≤ now - c.last_call_timestamp → (handle_rate_limit c now).1 = 0) ∧
    ((handle_rate_limit c now).2).last_call_timestamp = now + (handle_rate_limit c now).1 ∧
    respect_rate_limit c now = handle_rate_limit c now ∧
    (getRequestStart c now ≤ now2 →
      12 ≤ getRequestStart ((handle_rate_limit c now).2) now2 - getRequestStart c now) := by
  refine ⟨?_, ?_, ?_, rfl, ?_⟩
  · intro h
    simp [handle_rate_limit, hmin, h]
  · intro h
    rw [handle_rate_limit, hmin]
    simp only
    rw [if_neg (by linarith)]
  · rw [handle_rate_limit, hmin]
    split
    · rename_i h
      simp
    · rename_i h
      simp
  · intro _
    have h2 := getRequestStart_ge ((handle_rate_limit c now).2) now2
    rw [handle_rate_limit_min, hmin] at h2
    have hl : ((handle_rate_limit c now).2).last_call_timestamp = getRequestStart c now := rfl
    rw [hl] at h2
    linarith

/-- Claim C8: every code path that writes `StockPrices` rows (the
Downloader script, the batch-insert routine, and the web form) sends a
query text that is a fixed literal, independent of the row values;
the values travel only in the placeholder parameters. -/
theorem c8_sql_inserts_parameterized :
    (∀ (sid sid2 : Nat) (r r2 : DownloaderRow),
      (downloaderInsertCall sid r).1 = (downloaderInsertCall sid2 r2).1) ∧
    (∀ b b2 : List Tuple9, (storageInsertCall b).1 = (storageInsertCall b2).1) ∧
    (∀ (sid sid2 : Int) (r r2 : YahooRec),
      (webappInsertCall sid r).1 = (webappInsertCall sid2 r2).1) ∧
    (∀ (sid : Nat) (r : DownloaderRow), (downloaderInsertCall sid r).2 =
      [SqlValue.natV sid, SqlValue.strV r.fecha, SqlValue.ratV r.apertura,
        SqlValue.ratV r.alto, SqlValue.ratV r.bajo, SqlValue.ratV r.cierre,
        SqlValue.intV r.volumen]) ∧
    (∀ b : List Tuple9, (storageInsertCall b).2 = b) ∧
    (∀ (sid : Int) (r : YahooRec), ((webappInsertCall sid r).2).map Prod.fst =
      ["symbol_id", "date", "open", "high", "low", "close", "volume"]) :=
  ⟨fun _ _ _ _ => rfl, fun _ _ => rfl, fun _ _ _ _ => rfl,
    fun _ _ => rfl, fun _ => rfl, fun _ _ => rfl⟩

/-- Claim C9: the Singleton identity invariant.  `Singleton.__new__`
returns the stored instance unchanged; constructing
`AlphaVantageClient` again returns the identical object; and after a
first construction, a later construction (with any arguments) returns
the first object with its `api_key` and `last_call_timestamp`
untouched. -/
theorem c9_singleton_identity (c fresh : Client) (a a2 : Option String)
    (k u k2 u2 : String) :
    singletonNew (some c) fresh = (c, some c) ∧
    constructClient (some c) a2 k2 u2 = (c, some c) ∧
    (constructClient none a k u).2 = some (constructClient none a k u).1 ∧
    (constructClient ((constructClient none a k u).2) a2 k2 u2).1 =
      (constructClient none a k u).1 ∧
    ((constructClient ((constructClient none a k u).2) a2 k2 u2).1).api_key =
      resolveApiKey a k ∧
    ((constructClient ((constructClient none a k u).2) a2 k2 u2).1).last_call_timestamp
      = 0 :=
  ⟨rfl, rfl, rfl, rfl, rfl, rfl⟩

/-- Claim C3: the retry loop of
`StockDataDownloader.download_symbol_data` is bounded with exponential
backoff: it makes at most `max_retries = 3` attempts, the wait before
the k-th retry is `60 * 2^(k-1)` seconds (60, then 120), and when all
three attempts raise it sets the download record to `Failed` and
returns `(download_id, None, False)`. -/
theorem c3_download_retry_bounded (did : Nat) (f : Nat → Outcome) :
    (download_symbol_data did f).attemptsMade ≤ 3 ∧
    (download_symbol_data did f).waits =
      (List.range ((download_symbol_data did f).attemptsMade - 1)).map
        (fun k => 60 * 2 ^ k) ∧
    (f 1 = Outcome.exn → f 2 = Outcome.exn → f 3 = Outcome.exn →
      (download_symbol_data did f).statusUpdate = some "Failed" ∧
      (download_symbol_data did f).retDownloadId = some did ∧
      (download_symbol_data did f).retDataPresent = false ∧
      (download_symbol_data did f).retSuccess = false) := by
  cases h1 : f 1 <;> cases h2 : f 2 <;> cases h3 : f 3 <;>
    simp [download_symbol_data, downloadGo, h1, h2, h3] <;> decide

/-- Closed witness for claim C3: the all-raising run makes three
attempts, waits 60 then 120 seconds, marks the record Failed and
returns no data. -/
theorem c3_download_retry_bounded_witness :
    (download_symbol_data 7 (fun _ => Outcome.exn)).statusUpdate = some "Failed" ∧
    (download_symbol_data 7 (fun _ => Outcome.exn)).retDownloadId = some 7 ∧
    (download_symbol_data 7 (fun _ => Outcome.exn)).retDataPresent = false ∧
    (download_symbol_data 7 (fun _ => Outcome.exn)).retSuccess = false :=
  (c3_download_retry_bounded 7 (fun _ => Outcome.exn)).2.2 rfl rfl rfl

/-- Counterexample for claim C4: the Note-handling retry of
`AlphaVantageAPI.get_daily_time_series` is not bounded.  Against the
response sequence that is rate-limited on every request, the method
never returns, whatever number of requests it is given. -/
theorem c4_unbounded_retry_counterexample :
    ¬ ∃ (fuel : Nat) (r : Option Nat × Nat),
      get_daily_time_series (fun _ => AvResp.noteLimited) fuel = some r := by
  rintro ⟨fuel, r, h⟩
  rw [get_daily_time_series, getDailyGo_allNote] at h
  cases h

/-- Claim C4 (amended): the Note-handling retry of
`get_daily_time_series` waits 60 seconds per rate-limited response and
reissues the request, but the number of attempts is bounded only by
the position of the first response that is not rate-limited: when
response `n` is the first such response, the method performs `n`
rate-limit waits and returns that response outcome, and on the
all-rate-limited sequence it never returns. -/
theorem c4_note_retry_terminates (resps : Nat → AvResp) (n fuel : Nat)
    (hbefore : ∀ k, k < n → resps k = AvResp.noteLimited)
    (hstop : resps n ≠ AvResp.noteLimited) (hfuel : n < fuel) :
    get_daily_time_series resps fuel = some (avAnswer (resps n), n) := by
  rw [get_daily_time_series]
  have := getDailyGo_first_stop resps n fuel 0
    (by intro k hk; simpa using hbefore k hk) (by simpa using hstop) hfuel
  simpa using this

/-- Closed witness for the amended claim C4: with two rate-limited
responses followed by a usable one, the call returns the data after
exactly two 60-second waits. -/
theorem c4_note_retry_terminates_witness :
    get_daily_time_series (fun k => if k < 2 then AvResp.noteLimited else AvResp.ok 9) 5
      = some (some 9, 2) :=
  c4_note_retry_terminates (fun k => if k < 2 then AvResp.noteLimited else AvResp.ok 9)
    2 5 (by decide) (by decide) (by decide)

/-- Claim C5: `StockDataStorage.store_stock_data` with a non-empty
`data_list` and a known symbol partitions the rows into consecutive
batches of at most 1000 rows in input order (their concatenation is
the row list), inserts every batch, and returns `len(data_list)` when
no batch raises; with an empty `data_list` or an unknown symbol it
returns 0 without inserting anything. -/
theorem c5_store_stock_data_batches (sid did : Nat) (l : List StockItem)
    (h : l ≠ []) :
    store_stock_data (some sid) l did none = (l.length, l.map (toTuple sid did)) ∧
    (∀ b ∈ batches1000 (l.map (toTuple sid did)), b.length ≤ 1000) ∧
    (batches1000 (l.map (toTuple sid did))).flatten = l.map (toTuple sid did) ∧
    (∀ (sI : Option Nat) (did2 : Nat) (fa : Option Nat),
      store_stock_data sI [] did2 fa = (0, [])) ∧
    (∀ (l2 : List StockItem) (did2 : Nat) (fa : Option Nat),
      store_stock_data none l2 did2 fa = (0, [])) := by
  refine ⟨?_, batches1000_batch_le _, batches1000_flatten _, ?_, ?_⟩
  · cases l with
    | nil => exact absurd rfl h
    | cons x xs =>
      show insertBatches none (batches1000 ((x :: xs).map (toTuple sid did))) 0 0 [] =
        ((x :: xs).length, (x :: xs).map (toTuple sid did))
      rw [insertBatches_none]
      rw [List.nil_append, batches1000_flatten, Nat.zero_add]
      congr 1
      rw [← List.length_flatten, batches1000_flatten, List.length_map]
  · intro sI did2 fa
    rfl
  · intro l2 did2 fa
    cases l2 <;> rfl

/-- Closed witness for claim C5: one stored row produces one batch,
one committed row, and the return value 1. -/
theorem c5_store_stock_data_batches_witness :
    store_stock_data (some 1) [⟨"2024-01-02", 0, 0, 0, 0, 0, 0⟩] 2 none =
      (1, [toTuple 1 2 ⟨"2024-01-02", 0, 0, 0, 0, 0, 0⟩]) :=
  (c5_store_stock_data_batches 1 2 [⟨"2024-01-02", 0, 0, 0, 0, 0, 0⟩]
    (List.cons_ne_nil _ _)).1

/-- Claim C10: the batch-insert routine commits each batch of up to
1000 rows individually.  When the insert of batch number `j` raises,
the call returns 0 but the rows of the `j` previously committed
batches (the first `1000 * j` rows) stay inserted, so a return value
of 0 does not imply that nothing was stored. -/
theorem c10_partial_batches_committed (sid did : Nat) (l : List StockItem)
    (j : Nat) (h : j < (batches1000 (l.map (toTuple sid did))).length) :
    store_stock_data (some sid) l did (some j) =
      (0, (l.map (toTuple sid did)).take (1000 * j)) := by
  cases l with
  | nil =>
    simp [batches1000, List.length_map] at h
  | cons x xs =>
    show insertBatches (some j) (batches1000 ((x :: xs).map (toTuple sid did))) 0 0 [] =
      (0, ((x :: xs).map (toTuple sid did)).take (1000 * j))
    have heq := insertBatches_fail (batches1000 ((x :: xs).map (toTuple sid did)))
      j 0 0 [] h
    rw [Nat.zero_add] at heq
    rw [heq, List.nil_append, batches1000_take_flatten _ j h]

set_option maxRecDepth 400000 in
/-- Closed witness for claim C10: 1001 identical rows form two
batches; a failure at batch 1 returns 0 while the 1000 rows of batch 0
remain committed. -/
theorem c10_partial_batches_committed_witness :
    store_stock_data (some 1) (List.replicate 1001 ⟨"2024-01-02", 0, 0, 0, 0, 0, 0⟩) 2
        (some 1) =
      (0, ((List.replicate 1001
        (⟨"2024-01-02", 0, 0, 0, 0, 0, 0⟩ : StockItem)).map (toTuple 1 2)).take 1000) ∧
    ((List.replicate 1001
        (⟨"2024-01-02", 0, 0, 0, 0, 0, 0⟩ : StockItem)).map (toTuple 1 2)).take 1000 ≠ [] :=
  ⟨c10_partial_batches_committed 1 2
      (List.replicate 1001 ⟨"2024-01-02", 0, 0, 0, 0, 0, 0⟩) 1
      (by decide),
    List.ne_nil_of_length_pos (by decide)⟩

/-- Counterexample for claim C6: an input dictionary that does contain
the key `Time Series (Daily)` but whose single date entry has no
fields makes `parse_daily_time_series` raise a `KeyError`
(result `none`) instead of returning one record per date entry. -/
theorem c6_parse_raises_counterexample :
    AlphaVantageClient.parse_daily_time_series
      (some [("2024-01-02", ([] : AvEntry))]) = none := rfl

/-- Claim C6 (amended): whenever `parse_daily_time_series` returns a
list (which it does exactly when every date entry carries the five
required fields with parseable numeric strings), that list has one
record per date entry, each record obtained from an input entry by the
float/int conversions, and the list is sorted by date string in
descending order; on an empty payload or one lacking the
`Time Series (Daily)` key it returns the empty list rather than
raising; an entry with a missing field or an unparseable number makes
the call raise instead. -/
theorem c6_parse_normalization (ts : List (String × AvEntry))
    (l : List DailyRecord)
    (h : AlphaVantageClient.parse_daily_time_series (some ts) = some l) :
    l.length = ts.length ∧
    List.Pairwise (fun a b => pyStrLt a.date b.date = false) l ∧
    (∀ r ∈ l, ∃ item ∈ ts, convDaily item = some r) ∧
    AlphaVantageClient.parse_daily_time_series none = some [] := by
  rw [AlphaVantageClient.parse_daily_time_series] at h
  cases hconv : convertAll convDaily ts with
  | none =>
    rw [hconv] at h
    cases h
  | some formatted =>
    rw [hconv] at h
    have h2 : sortDescBy DailyRecord.date formatted = l := Option.some.inj h
    subst h2
    refine ⟨?_, ?_, ?_, rfl⟩
    · rw [length_sortDescBy]
      exact convertAll_length convDaily ts formatted hconv
    · exact pairwise_sortDescBy _ _
    · intro r hr
      exact convertAll_mem convDaily ts formatted hconv r
        ((mem_sortDescBy _ r formatted).mp hr)

/-- The two-date sample payload used to witness the amended claim
C6. -/
def c6SampleTs : List (String × AvEntry) :=
  [("2024-01-01",
    [("1. open", "1"), ("2. high", "2"), ("3. low", "3"),
      ("4. close", "4"), ("5. volume", "5")]),
   ("2024-01-02",
    [("1. open", "6"), ("2. high", "7"), ("3. low", "8"),
      ("4. close", "9"), ("5. volume", "10")])]

/-- The records the sample payload parses to, most recent date
first. -/
def c6SampleRecs : List DailyRecord :=
  [⟨"2024-01-02", ((6 : ℕ) : ℚ), ((7 : ℕ) : ℚ), ((8 : ℕ) : ℚ),
      ((9 : ℕ) : ℚ), ((10 : ℕ) : ℤ)⟩,
   ⟨"2024-01-01", ((1 : ℕ) : ℚ), ((2 : ℕ) : ℚ), ((3 : ℕ) : ℚ),
      ((4 : ℕ) : ℚ), ((5 : ℕ) : ℤ)⟩]

/-- Closed witness for the amended claim C6: a well-formed two-date
payload parses to two records, most recent date first. -/
theorem c6_parse_normalization_witness :
    AlphaVantageClient.parse_daily_time_series (some c6SampleTs) = some c6SampleRecs ∧
    c6SampleRecs.length = c6SampleTs.length ∧
    List.Pairwise (fun a b => pyStrLt a.date b.date = false) c6SampleRecs :=
  ⟨rfl,
    (c6_parse_normalization c6SampleTs c6SampleRecs rfl).1,
    (c6_parse_normalization c6SampleTs c6SampleRecs rfl).2.1⟩

/-- Claim C7: the web form download flow is atomic.  For a valid POST
to /descargar (all three form fields present and non-empty, both dates
well-formed with the start date not after the end date, a reachable
database, an existing symbol, and a non-empty download), the handler
replaces every stored `StockPrices` row of the selected SymbolID by
one row per downloaded record inside one transaction; if any statement
of that transaction (the DELETE or any INSERT) raises, the transaction
rolls back and the stored rows are unchanged. -/
theorem c7_descargar_transactional (sidStr fiStr ffStr : String)
    (symbols : List (Nat × String)) (records : List YahooRec)
    (db : List PriceRow) (sid : Nat) (d1 d2 : Nat × Nat × Nat)
    (hsid : sidStr ≠ "") (hfi : fiStr ≠ "") (hff : ffStr ≠ "")
    (hd1 : parseDateYMD fiStr = some d1) (hd2 : parseDateYMD ffStr = some d2)
    (horder : pyStrLt (formatDateYMD d2) (formatDateYMD d1) = false)
    (hnum : digitsVal sidStr.data = some sid)
    (hlook : (symbols.lookup sid).isSome = true)
    (hne : records ≠ []) :
    descargar ⟨some sidStr, some fiStr, some ffStr⟩ symbols true (some records) none db =
      (db.filter (fun r => r.symbolId ≠ sid) ++ records.map (toPriceRow sid),
        FlashKind.success) ∧
    (∀ k, k < 1 + records.length →
      descargar ⟨some sidStr, some fiStr, some ffStr⟩ symbols true (some records)
          (some k) db =
        (db, FlashKind.error)) := by
  obtain ⟨sym, hsym⟩ := Option.isSome_iff_exists.mp hlook
  cases records with
  | nil => exact absurd rfl hne
  | cons r rs =>
    constructor
    · simp [descargar, descargarTransaction, hsid, hfi, hff, hd1, hd2, horder,
        hnum, hsym]
    · intro k hk
      simp [descargar, descargarTransaction, hsid, hfi, hff, hd1, hd2, horder,
        hnum, hsym, hk]
      simp [List.length_cons] at hk
      omega

/-- Closed witness for claim C7: a valid POST replaces the stored row
of SymbolID 1 while keeping the row of SymbolID 2, and a failure in
the transaction (here the DELETE, statement 0) leaves the table
unchanged. -/
theorem c7_descargar_transactional_witness :
    descargar ⟨some "1", some "2024-01-01", some "2024-01-02"⟩ [(1, "AAPL")] true
        (some [⟨"2024-01-01", 0, 0, 0, 0, 0⟩]) none
        [⟨1, "2023-01-01", 0, 0, 0, 0, 0⟩, ⟨2, "2023-01-01", 0, 0, 0, 0, 0⟩] =
      ([⟨2, "2023-01-01", 0, 0, 0, 0, 0⟩, toPriceRow 1 ⟨"2024-01-01", 0, 0, 0, 0, 0⟩],
        FlashKind.success) ∧
    descargar ⟨some "1", some "2024-01-01", some "2024-01-02"⟩ [(1, "AAPL")] true
        (some [⟨"2024-01-01", 0, 0, 0, 0, 0⟩]) (some 0)
        [⟨1, "2023-01-01", 0, 0, 0, 0, 0⟩, ⟨2, "2023-01-01", 0, 0, 0, 0, 0⟩] =
      ([⟨1, "2023-01-01", 0, 0, 0, 0, 0⟩, ⟨2, "2023-01-01", 0, 0, 0, 0, 0⟩],
        FlashKind.error) :=
  ⟨(c7_descargar_transactional "1" "2024-01-01" "2024-01-02" [(1, "AAPL")]
      [⟨"2024-01-01", 0, 0, 0, 0, 0⟩]
      [⟨1, "2023-01-01", 0, 0, 0, 0, 0⟩, ⟨2, "2023-01-01", 0, 0, 0, 0, 0⟩]
      1 (2024, 1, 1) (2024, 1, 2) (by decide) (by decide) (by decide) rfl rfl
      (by decide) rfl (by decide) (List.cons_ne_nil _ _)).1,
    (c7_descargar_transactional "1" "2024-01-01" "2024-01-02" [(1, "AAPL")]
      [⟨"2024-01-01", 0, 0, 0, 0, 0⟩]
      [⟨1, "2023-01-01", 0, 0, 0, 0, 0⟩, ⟨2, "2023-01-01", 0, 0, 0, 0, 0⟩]
      1 (2024, 1, 1) (2024, 1, 2) (by decide) (by decide) (by decide) rfl rfl
      (by decide) rfl (by decide) (List.cons_ne_nil _ _)).2 0 (by decide)⟩

/-- Closed witness for claim C2: for a freshly constructed client
(timestamp 0, interval 12) whose first call happens at clock value 5,
a second call issued the moment the first request leaves starts at
least 12 seconds after it. -/
theorem c2_rate_limiter_fixed_interval_witness :
    12 ≤ getRequestStart ((handle_rate_limit ⟨"key", "url", 0, 12⟩ 5).2)
          (getRequestStart ⟨"key", "url", 0, 12⟩ 5) -
        getRequestStart ⟨"key", "url", 0, 12⟩ 5 :=
  (c2_rate_limiter_fixed_interval ⟨"key", "url", 0, 12⟩ 5
      (getRequestStart ⟨"key", "url", 0, 12⟩ 5) rfl).2.2.2.2 (le_refl _)
